import Mathlib

/-!
Shallow embedding of the WireViz-Web request layer (`src/wireviz_web/server.py`)
and of the format-negotiation / PlantUML-decoding helpers it imports from
`wireviz_web.core`.  File contents are byte lists, a filesystem is an
association list from path strings to contents where the most recent write
shadows earlier entries, and the external rendering engine is a parameter of
the handler.
-/

namespace WirevizWeb

/-- Bytes are naturals; all arithmetic producing them reduces modulo 256. -/
abbrev Byte := Nat

/-- A filesystem snapshot: newest entries first, lookup takes the first hit. -/
abbrev FS := List (String × List Byte)

/-- Read a file: the first (most recent) entry for the path wins. -/
def lookupFile (fs : FS) (p : String) : Option (List Byte) :=
  (fs.find? fun e => e.1 == p).map fun e => e.2

/-- Write a file: a new entry shadows any older entry at the same path. -/
def setFile (fs : FS) (p : String) (c : List Byte) : FS :=
  (p, c) :: fs

/-- Error taxonomy of the embedded handlers, mirroring the Python exceptions:
`unsupportedFormat` for an unknown MIME type or format token, `valueError` for
the `PurePath.with_suffix` failure on an empty file name, `engineFailed` for the
`RuntimeError` wrapping `subprocess.CalledProcessError`, `fileNotFound` for a
missing engine output file, and `decodeError` for a malformed PlantUML text. -/
inductive WebError where
  | unsupportedFormat (input : String)
  | valueError
  | engineFailed (msg : String)
  | fileNotFound (path : String)
  | decodeError
deriving DecidableEq

/-- The closed set of MIME types the service supports. -/
def supportedMimetypes : List String := ["image/svg+xml", "image/png"]

/-- The closed set of short format tokens the service supports. -/
def supportedTypes : List String := ["svg", "png"]

/-- Modelled from the spec: `wireviz_web.core.mimetype_to_type` is imported by
`server.py` but its source is not included under `src/`.  Per spec section 4.1
it maps each supported MIME string to its format token and fails with an
`UnsupportedFormat` error on any other input. -/
def mimetype_to_type (m : String) : Except WebError String :=
  if m = "image/svg+xml" then .ok "svg"
  else if m = "image/png" then .ok "png"
  else .error (.unsupportedFormat m)

/-- Modelled from the spec: `wireviz_web.core.type_to_mimetype` is imported by
`server.py` but its source is not included under `src/`.  Per spec section 4.1
it maps each supported format token to its MIME string and fails with an
`UnsupportedFormat` error on any other input. -/
def type_to_mimetype (t : String) : Except WebError String :=
  if t = "svg" then .ok "image/svg+xml"
  else if t = "png" then .ok "image/png"
  else .error (.unsupportedFormat t)

/-- C1: on the closed supported set the negotiator is a bijection: the
MIME-to-token map and the token-to-MIME map invert each other in both
directions. -/
theorem negotiator_roundtrip (m t : String)
    (hm : m ∈ supportedMimetypes) (ht : t ∈ supportedTypes) :
    (∃ a, mimetype_to_type m = .ok a ∧ type_to_mimetype a = .ok m) ∧
    (∃ b, type_to_mimetype t = .ok b ∧ mimetype_to_type b = .ok t) := by
  simp only [supportedMimetypes, List.mem_cons, List.mem_singleton,
    List.not_mem_nil, or_false] at hm
  simp only [supportedTypes, List.mem_cons, List.mem_singleton,
    List.not_mem_nil, or_false] at ht
  constructor
  · rcases hm with h | h <;> subst h
    · exact ⟨"svg", rfl, rfl⟩
    · exact ⟨"png", rfl, rfl⟩
  · rcases ht with h | h <;> subst h
    · exact ⟨"image/svg+xml", rfl, rfl⟩
    · exact ⟨"image/png", rfl, rfl⟩

/-- Witness for C1 at the concrete pair (image/svg+xml, png). -/
theorem negotiator_roundtrip_witness :
    "image/svg+xml" ∈ supportedMimetypes ∧ "png" ∈ supportedTypes ∧
    ((∃ a, mimetype_to_type "image/svg+xml" = .ok a ∧
        type_to_mimetype a = .ok "image/svg+xml") ∧
     (∃ b, type_to_mimetype "png" = .ok b ∧ mimetype_to_type b = .ok "png")) :=
  ⟨by decide, by decide,
    negotiator_roundtrip "image/svg+xml" "png" (by decide) (by decide)⟩

/-- C2: outside the closed supported set both directions of the negotiator
fail with an `UnsupportedFormat` error naming the offending input; neither
returns a value. -/
theorem negotiator_rejects_unknown (m t : String)
    (hm : m ∉ supportedMimetypes) (ht : t ∉ supportedTypes) :
    mimetype_to_type m = .error (.unsupportedFormat m) ∧
    type_to_mimetype t = .error (.unsupportedFormat t) := by
  simp only [supportedMimetypes, List.mem_cons, List.mem_singleton,
    List.not_mem_nil, or_false, not_or] at hm
  simp only [supportedTypes, List.mem_cons, List.mem_singleton,
    List.not_mem_nil, or_false, not_or] at ht
  constructor
  · simp [mimetype_to_type, hm.1, hm.2]
  · simp [type_to_mimetype, ht.1, ht.2]

/-- Witness for C2 at the concrete pair (text/plain, gif). -/
theorem negotiator_rejects_unknown_witness :
    "text/plain" ∉ supportedMimetypes ∧ "gif" ∉ supportedTypes ∧
    (mimetype_to_type "text/plain" = .error (.unsupportedFormat "text/plain") ∧
     type_to_mimetype "gif" = .error (.unsupportedFormat "gif")) :=
  ⟨by decide, by decide,
    negotiator_rejects_unknown "text/plain" "gif" (by decide) (by decide)⟩

/-- Split a character list at every slash, keeping empty components. -/
def splitSlash : List Char → List (List Char)
  | [] => [[]]
  | c :: cs =>
    if c = '/' then [] :: splitSlash cs
    else
      match splitSlash cs with
      | [] => [[c]]
      | h :: t => (c :: h) :: t

/-- Last nonempty, non-dot component of a slash-separated path, mirroring
`pathlib.PurePath(...).name` for the POSIX flavour used by the server. -/
def pathName (s : String) : String :=
  ⟨((((splitSlash s.data).filter fun c => c != [] && c != ['.']).getLast?).getD [])⟩

/-- Index of the last dot character of a list of characters, if any. -/
def lastDotIdx (l : List Char) : Option Nat :=
  (((List.range l.length).filter fun i => l.getD i ' ' == '.').getLast?)

/-- Stem of a final path component, mirroring `PurePath.stem`: everything
before the last dot, except that a dot in first or last position (dotfiles,
trailing dots) yields no suffix at all. -/
def pyStem (name : String) : String :=
  match lastDotIdx name.data with
  | some i => if 0 < i ∧ i + 1 < name.data.length then ⟨name.data.take i⟩ else name
  | none => name

/-- Name component of `PurePath(p).with_suffix(suffix)`, as computed by
`server.py` for the download file name: replace the suffix of the final path
component, raising `ValueError` when that component is empty. -/
def pyWithSuffixName (p : String) (suffix : String) : Except WebError String :=
  let name := pathName p
  if name = "" then .error .valueError
  else .ok (pyStem name ++ suffix)

/-- A `POST /render` request: optional `Accept` header value, the uploaded
file's client-supplied name and bytes, and the optional `images` uploads as
(filename, bytes) pairs in order. -/
structure RenderRequest where
  accept : Option String
  ymlFilename : String
  ymlContent : List Byte
  images : List (String × List Byte)
deriving DecidableEq

/-- Outcome of one engine invocation: exit status, diagnostic streams, and the
files the engine wrote (paths relative to the model root, newest last). -/
structure EngineResult where
  exitCode : Nat
  stdout : String
  stderr : String
  outputs : List (String × List Byte)

/-- The external rendering engine, abstracted as a function of the argument
list and of the filesystem it is run against. -/
abbrev Engine := List String → FS → EngineResult

/-- The HTTP response assembled on success: body bytes, MIME type, and the
Content-Disposition header value. -/
structure RenderResponse where
  body : List Byte
  mimetype : String
  contentDisposition : String
deriving DecidableEq

/-- Output MIME selection of `server.py`: `request.headers.get("accept") or
"image/svg+xml"`, so an absent or empty header falls back to SVG while any
other value is used as-is. -/
def effectiveMimetype : Option String → String
  | none => "image/svg+xml"
  | some s => if s = "" then "image/svg+xml" else s

/-- Model name of the per-request temporary directory. -/
def tmpDir : String := "tmp"

/-- Staging path of the uploaded description document, `tmp/input.yml`. -/
def srcPath : String := tmpDir ++ "/input.yml"

/-- Fixed subdirectory that receives the auxiliary image uploads. -/
def resourcesDir : String := tmpDir ++ "/resources"

/-- Stage every image under `resources/` keeping its original filename, in
upload order, exactly as the `for img in images` loop of `server.py` does. -/
def stageImages (images : List (String × List Byte)) (fs : FS) : FS :=
  images.foldl (fun acc img => setFile acc (resourcesDir ++ "/" ++ img.1) img.2) fs

/-- Filesystem the engine runs against: the description at `tmp/input.yml`,
then, when images were uploaded, each image under `tmp/resources/`. -/
def stagedFS (req : RenderRequest) (fs : FS) : FS :=
  let fs1 := setFile fs srcPath req.ymlContent
  if req.images = [] then fs1 else stageImages req.images fs1

/-- Argument list handed to the engine:
`["wireviz", src, "-o", tmp]`, extended by `["-f", fmt]` unless the format is
the engine default `svg`. -/
def buildCmd (fmt : String) : List String :=
  ["wireviz", srcPath, "-o", tmpDir] ++ (if fmt ≠ "svg" then ["-f", fmt] else [])

/-- A single-quote character as a string, for Python `repr` output. -/
def squote : String := String.singleton (Char.ofNat 39)

/-- Python `repr` of a list of strings, as interpolated into messages. -/
def pyListRepr (l : List String) : String :=
  "[" ++ String.intercalate ", " (l.map fun s => squote ++ s ++ squote) ++ "]"

/-- Message of the `RuntimeError` raised on engine failure:
`f"WireViz failed: {e}"` where `e` is the `CalledProcessError`, whose string
form names the command list and the exit status - `check_call` captures no
stream, so no stderr/stdout text can appear here. -/
def wirevizFailMsg (cmd : List String) (code : Nat) : String :=
  "WireViz failed: Command " ++ squote ++ pyListRepr cmd ++ squote ++
    " returned non-zero exit status " ++ toString code ++ "."

/-- Apply the files written by the engine to the staged filesystem. -/
def applyOutputs (outs : List (String × List Byte)) (fs : FS) : FS :=
  outs.foldl (fun acc o => setFile acc o.1 o.2) fs

/-- Path the handler reads the artifact from:
`os.path.join(tmp, f"{Path(src).stem}.{fmt}")`. -/
def outFilePath (fmt : String) : String :=
  tmpDir ++ "/" ++ pyStem (pathName srcPath) ++ "." ++ fmt

/-- Body of the `with tempfile.TemporaryDirectory()` block of
`RenderRegular.post`: stage the inputs, run the engine, fail on a non-zero
exit status, otherwise read the artifact from the fixed output path. -/
def renderBody (engine : Engine) (req : RenderRequest) (fmt : String) (fs : FS) :
    Except WebError (List Byte) × FS :=
  let fs2 := stagedFS req fs
  let cmd := buildCmd fmt
  let r := engine cmd fs2
  let fs3 := applyOutputs r.outputs fs2
  if r.exitCode ≠ 0 then
    (.error (.engineFailed (wirevizFailMsg cmd r.exitCode)), fs3)
  else
    match lookupFile fs3 (outFilePath fmt) with
    | none => (.error (.fileNotFound (outFilePath fmt)), fs3)
    | some payload => (.ok payload, fs3)

/-- Drop every file whose path starts with the given directory string. -/
def removeUnder (pre : String) (fs : FS) : FS :=
  fs.filter fun e => !(pre.data.isPrefixOf e.1.data)

/-- The `RenderRegular.post` handler: negotiate the format from the `Accept`
header, derive the download name from the uploaded filename, then run the
temporary-directory block; the `with` construct removes everything under the
temporary directory on every exit path before the result propagates. -/
def renderPost (engine : Engine) (req : RenderRequest) (fs : FS) :
    Except WebError RenderResponse × FS :=
  let mimetype := effectiveMimetype req.accept
  match mimetype_to_type mimetype with
  | .error e => (.error e, fs)
  | .ok fmt =>
    match pyWithSuffixName req.ymlFilename ("." ++ fmt) with
    | .error e => (.error e, fs)
    | .ok outputFilename =>
      let body := renderBody engine req fmt fs
      let fsFinal := removeUnder (tmpDir ++ "/") body.2
      match body.1 with
      | .error e => (.error e, fsFinal)
      | .ok payload =>
        (.ok { body := payload, mimetype := mimetype,
               contentDisposition := "attachment; filename=" ++ outputFilename },
         fsFinal)

/-- A benign engine: exits 0 and writes an SVG artifact at `tmp/input.svg`. -/
def engineOk : Engine := fun _ _ =>
  { exitCode := 0, stdout := "", stderr := "",
    outputs := [("tmp/input.svg", [60, 115, 118, 103])] }

/-- A request with no Accept header and a plain YAML upload. -/
def reqDemo : RenderRequest :=
  { accept := none, ymlFilename := "demo01.yaml",
    ymlContent := [99, 97, 98, 108, 101], images := [] }

/-- A request whose Accept header carries an unsupported MIME type. -/
def reqJson : RenderRequest :=
  { accept := some "application/json", ymlFilename := "demo01.yaml",
    ymlContent := [1, 2, 3], images := [] }

/-- Helper: the handler depends on the `Accept` header only through
`effectiveMimetype`. -/
theorem renderPost_accept_congr (engine : Engine) (req : RenderRequest)
    (fs : FS) (x : Option String)
    (h : effectiveMimetype x = effectiveMimetype req.accept) :
    renderPost engine { req with accept := x } fs = renderPost engine req fs := by
  simp only [renderPost]
  rw [h]
  rfl

/-- C3 counterexample: with `Accept: application/json` (an unrecognized MIME
type) the handler does not default to SVG; it fails with the
`UnsupportedFormat` error, even under an engine that would succeed. -/
theorem accept_unrecognized_fails :
    (renderPost engineOk reqJson []).1 =
      .error (.unsupportedFormat "application/json") := rfl

/-- C3 amended: the SVG default applies exactly when the `Accept` header is
absent or empty - the request then behaves as if `Accept: image/svg+xml` had
been sent - while an unrecognized nonempty `Accept` value makes the handler
fail with `UnsupportedFormat` instead of defaulting. -/
theorem accept_default_absent_only (engine : Engine) (req : RenderRequest)
    (fs : FS) :
    ((req.accept = none ∨ req.accept = some "") →
      renderPost engine req fs =
        renderPost engine { req with accept := some "image/svg+xml" } fs) ∧
    (∀ m, req.accept = some m → m ∉ supportedMimetypes → m ≠ "" →
      (renderPost engine req fs).1 = .error (.unsupportedFormat m)) := by
  constructor
  · intro h
    refine (renderPost_accept_congr engine req fs (some "image/svg+xml") ?_).symm
    rcases h with h | h <;> rw [h] <;> rfl
  · intro m hacc hmem hne
    simp only [supportedMimetypes, List.mem_cons, List.mem_singleton,
      List.not_mem_nil, or_false, not_or] at hmem
    simp only [renderPost, hacc, effectiveMimetype, if_neg hne,
      mimetype_to_type, if_neg hmem.1, if_neg hmem.2]

/-- Witness for C3 at concrete requests: the header-free request renders the
same as one with an explicit `Accept: image/svg+xml`, and `Accept: text/html`
fails with `UnsupportedFormat`. -/
theorem accept_default_absent_only_witness :
    renderPost engineOk reqDemo [] =
      renderPost engineOk { reqDemo with accept := some "image/svg+xml" } [] ∧
    (renderPost engineOk { reqDemo with accept := some "text/html" } []).1 =
      .error (.unsupportedFormat "text/html") :=
  ⟨(accept_default_absent_only engineOk reqDemo []).1 (Or.inl rfl),
   (accept_default_absent_only engineOk { reqDemo with accept := some "text/html" } []).2
     "text/html" rfl (by decide) (by decide)⟩

/-- C8: the argument list handed to the engine carries the explicit `-f`
output-format flag exactly when the negotiated format differs from the engine
default `svg`; for `svg` the list is the bare invocation with no format flag. -/
theorem format_flag_iff_not_default (fmt : String) :
    ("-f" ∈ buildCmd fmt ↔ fmt ≠ "svg") ∧
    (fmt = "svg" → buildCmd fmt = ["wireviz", srcPath, "-o", tmpDir]) := by
  constructor
  · by_cases h : fmt = "svg"
    · subst h; decide
    · simp only [buildCmd, if_pos h, List.mem_append]
      constructor
      · intro _; exact h
      · intro _; exact Or.inr (List.mem_cons_self _ _)
  · intro h; subst h; rfl

/-- Witness for C8 at the concrete formats png and svg. -/
theorem format_flag_witness :
    ("-f" ∈ buildCmd "png" ↔ "png" ≠ "svg") ∧
    buildCmd "svg" = ["wireviz", srcPath, "-o", tmpDir] :=
  ⟨(format_flag_iff_not_default "png").1, (format_flag_iff_not_default "svg").2 rfl⟩

/-- Diagnostic text a failing engine writes to stderr in the fixtures. -/
def engineStderrSample : String := "input.yml, line 3: syntax error"

/-- A failing engine: exits 1 with a diagnostic on stderr and no output file. -/
def engineFail : Engine := fun _ _ =>
  { exitCode := 1, stdout := "", stderr := engineStderrSample, outputs := [] }

set_option maxRecDepth 8192 in
/-- C4 counterexample: when the engine exits non-zero, the handler's error
message is built from the command list and exit status alone -
`subprocess.check_call` captures no stream - so the engine's stderr text never
appears in the error surfaced to the caller. -/
theorem engine_error_message_lacks_stderr :
    (renderPost engineFail reqDemo []).1 =
      .error (.engineFailed (wirevizFailMsg (buildCmd "svg") 1)) ∧
    ¬ (engineStderrSample.data <:+: (wirevizFailMsg (buildCmd "svg") 1).data) :=
  ⟨rfl, by decide⟩

/-- C4 amended: on a non-zero engine exit status the handler fails with the
wrapped `RuntimeError` whose message carries the command line and the exit
status (the engine's stderr/stdout are not captured and hence absent), and no
artifact bytes - partial or otherwise - are returned to the caller. -/
theorem engine_failure_no_partial_output (engine : Engine) (req : RenderRequest)
    (fs : FS) (fmt : String)
    (hfmt : mimetype_to_type (effectiveMimetype req.accept) = .ok fmt)
    (hname : pathName req.ymlFilename ≠ "")
    (hexit : (engine (buildCmd fmt) (stagedFS req fs)).exitCode ≠ 0) :
    (renderPost engine req fs).1 =
      .error (.engineFailed (wirevizFailMsg (buildCmd fmt)
        (engine (buildCmd fmt) (stagedFS req fs)).exitCode)) := by
  have hsuf : pyWithSuffixName req.ymlFilename ("." ++ fmt) =
      .ok (pyStem (pathName req.ymlFilename) ++ ("." ++ fmt)) := by
    simp [pyWithSuffixName, hname]
  have hbody : (renderBody engine req fmt fs).1 =
      .error (.engineFailed (wirevizFailMsg (buildCmd fmt)
        (engine (buildCmd fmt) (stagedFS req fs)).exitCode)) := by
    simp only [renderBody, if_pos hexit]
  simp only [renderPost, hfmt, hsuf, hbody]

/-- Witness for C4 amended, under the concrete failing engine. -/
theorem engine_failure_no_partial_output_witness :
    mimetype_to_type (effectiveMimetype reqDemo.accept) = .ok "svg" ∧
    pathName reqDemo.ymlFilename ≠ "" ∧
    (engineFail (buildCmd "svg") (stagedFS reqDemo [])).exitCode ≠ 0 ∧
    (renderPost engineFail reqDemo []).1 =
      .error (.engineFailed (wirevizFailMsg (buildCmd "svg")
        (engineFail (buildCmd "svg") (stagedFS reqDemo [])).exitCode)) :=
  ⟨rfl, by decide, by decide,
    engine_failure_no_partial_output engineFail reqDemo [] "svg" rfl
      (by decide) (by decide)⟩

/-- Removing the files under a directory twice is the same as removing once. -/
theorem removeUnder_idem (pre : String) (fs : FS) :
    removeUnder pre (removeUnder pre fs) = removeUnder pre fs := by
  simp [removeUnder, List.filter_filter]

/-- C6: for every request, engine behavior, and starting filesystem free of
temporary files, every exit path of the handler (format error, download-name
error, engine failure, missing output, success) leaves no file under the
temporary directory: removing them again changes nothing. -/
theorem tempdir_cleanup (engine : Engine) (req : RenderRequest) (fs : FS)
    (hfs : removeUnder (tmpDir ++ "/") fs = fs) :
    removeUnder (tmpDir ++ "/") (renderPost engine req fs).2 =
      (renderPost engine req fs).2 := by
  simp only [renderPost]
  split
  · exact hfs
  · split
    · exact hfs
    · split
      · exact removeUnder_idem _ _
      · exact removeUnder_idem _ _

/-- Witness for C6 on a concrete successful render from a clean filesystem. -/
theorem tempdir_cleanup_witness :
    removeUnder (tmpDir ++ "/") ([] : FS) = [] ∧
    removeUnder (tmpDir ++ "/") (renderPost engineOk reqDemo []).2 =
      (renderPost engineOk reqDemo []).2 :=
  ⟨rfl, tempdir_cleanup engineOk reqDemo [] rfl⟩

/-- Appending behind a common front string is injective in the tail. -/
theorem string_append_left_cancel {s n m : String} (h : s ++ n = s ++ m) :
    n = m := by
  have hd := congrArg String.data h
  simp only [String.data_append] at hd
  exact String.ext (List.append_cancel_left hd)

/-- Distinct filenames stage at distinct paths under `resources/`. -/
theorem resources_path_inj {n m : String}
    (h : resourcesDir ++ "/" ++ n = resourcesDir ++ "/" ++ m) : n = m :=
  string_append_left_cancel h

/-- No staged image path collides with the description's staging path. -/
theorem resources_path_ne_srcPath (n : String) :
    resourcesDir ++ "/" ++ n ≠ srcPath := by
  intro h
  have hl := congrArg String.length h
  rw [String.length_append] at hl
  have h14 : (resourcesDir ++ "/").length = 14 := rfl
  have h13 : srcPath.length = 13 := rfl
  omega

/-- Content of the asset appearing last among those with the given filename. -/
def lastWrite : List (String × List Byte) → String → Option (List Byte)
  | [], _ => none
  | i :: is, name =>
    match lastWrite is name with
    | some c => some c
    | none => if i.1 = name then some i.2 else none

/-- Reading back the path just written yields the written content. -/
theorem lookupFile_setFile_same (fs : FS) (p : String) (c : List Byte) :
    lookupFile (setFile fs p c) p = some c := by
  unfold lookupFile setFile
  rw [List.find?_cons_of_pos _ (by simp)]
  rfl

/-- Writing one path leaves reads of any other path unchanged. -/
theorem lookupFile_setFile_ne (fs : FS) (p q : String) (c : List Byte)
    (h : q ≠ p) : lookupFile (setFile fs p c) q = lookupFile fs q := by
  unfold lookupFile setFile
  rw [List.find?_cons_of_neg _ (by simp [Ne.symm h])]

/-- Staging images with no occurrence of a filename leaves that filename's
path unchanged. -/
theorem lookupFile_stageImages_none (images : List (String × List Byte))
    (name : String) :
    ∀ fs, lastWrite images name = none →
      lookupFile (stageImages images fs) (resourcesDir ++ "/" ++ name) =
        lookupFile fs (resourcesDir ++ "/" ++ name) := by
  induction images with
  | nil => intro fs _; rfl
  | cons i is ih =>
    intro fs h
    have hl : lastWrite is name = none := by
      cases hq : lastWrite is name with
      | none => rfl
      | some c => simp [lastWrite, hq] at h
    have hne : i.1 ≠ name := by
      intro he
      simp [lastWrite, hl, he] at h
    show lookupFile (stageImages is (setFile fs (resourcesDir ++ "/" ++ i.1) i.2))
        (resourcesDir ++ "/" ++ name) = lookupFile fs (resourcesDir ++ "/" ++ name)
    rw [ih _ hl, lookupFile_setFile_ne]
    exact fun he => hne (resources_path_inj he).symm

/-- Staging resolves a duplicated filename to the asset written last. -/
theorem lookupFile_stageImages_last (images : List (String × List Byte))
    (name : String) (c : List Byte) :
    ∀ fs, lastWrite images name = some c →
      lookupFile (stageImages images fs) (resourcesDir ++ "/" ++ name) = some c := by
  induction images with
  | nil => intro fs h; cases h
  | cons i is ih =>
    intro fs h
    cases hq : lastWrite is name with
    | some d =>
      have hdc : d = c := by
        simp only [lastWrite, hq] at h
        exact Option.some.inj h
      subst hdc
      exact ih _ hq
    | none =>
      have h1 : i.1 = name ∧ i.2 = c := by
        simp only [lastWrite, hq] at h
        by_cases he : i.1 = name
        · rw [if_pos he] at h; exact ⟨he, Option.some.inj h⟩
        · rw [if_neg he] at h; cases h
      show lookupFile (stageImages is (setFile fs (resourcesDir ++ "/" ++ i.1) i.2))
          (resourcesDir ++ "/" ++ name) = some c
      rw [lookupFile_stageImages_none is name _ hq, h1.1,
        lookupFile_setFile_same, h1.2]

/-- C7: a request carrying several auxiliary assets under the same filename
still stages (staging is total, never an error), each asset goes to the fixed
`resources/` subdirectory under its original filename, and the last-written
asset is the one the engine can read under a duplicated name. -/
theorem images_last_write_wins (req : RenderRequest) (fs : FS)
    (name : String) (c : List Byte)
    (h : lastWrite req.images name = some c) :
    lookupFile (stagedFS req fs) (resourcesDir ++ "/" ++ name) = some c := by
  have himg : ¬ req.images = [] := by
    intro he; rw [he] at h; cases h
  simp only [stagedFS, if_neg himg]
  exact lookupFile_stageImages_last _ _ _ _ h

/-- A request uploading two assets under the name logo.png. -/
def reqDup : RenderRequest :=
  { accept := none, ymlFilename := "demo01.yaml", ymlContent := [7],
    images := [("logo.png", [10]), ("wire.png", [20]), ("logo.png", [30])] }

/-- Witness for C7: the second logo.png (bytes [30]) wins. -/
theorem images_last_write_wins_witness :
    lastWrite reqDup.images "logo.png" = some [30] ∧
    lookupFile (stagedFS reqDup []) (resourcesDir ++ "/" ++ "logo.png") =
      some [30] :=
  ⟨by decide, images_last_write_wins reqDup [] "logo.png" [30] (by decide)⟩

/-- A format-negotiation failure aborts the handler before any staging. -/
theorem renderPost_format_error (engine : Engine) (req : RenderRequest)
    (fs : FS) (e : WebError)
    (hfmt : mimetype_to_type (effectiveMimetype req.accept) = .error e) :
    renderPost engine req fs = (.error e, fs) := by
  simp only [renderPost, hfmt]

/-- Characterization of the handler once the format negotiated and the
uploaded filename has a nonempty final component: the outcome is decided by
the temporary-directory body, and the response carries the derived download
name. -/
theorem renderPost_of_ok_name (engine : Engine) (req : RenderRequest)
    (fs : FS) (fmt : String)
    (hfmt : mimetype_to_type (effectiveMimetype req.accept) = .ok fmt)
    (hname : pathName req.ymlFilename ≠ "") :
    renderPost engine req fs =
      (match (renderBody engine req fmt fs).1 with
       | .error e =>
         (.error e, removeUnder (tmpDir ++ "/") (renderBody engine req fmt fs).2)
       | .ok payload =>
         (.ok ⟨payload, effectiveMimetype req.accept,
            "attachment; filename=" ++
              (pyStem (pathName req.ymlFilename) ++ ("." ++ fmt))⟩,
          removeUnder (tmpDir ++ "/") (renderBody engine req fmt fs).2)) := by
  have hsuf : pyWithSuffixName req.ymlFilename ("." ++ fmt) =
      .ok (pyStem (pathName req.ymlFilename) ++ ("." ++ fmt)) := by
    simp [pyWithSuffixName, hname]
  simp only [renderPost, hfmt, hsuf]

/-- Staging images never touches the description's staging path. -/
theorem lookupFile_stageImages_srcPath (images : List (String × List Byte)) :
    ∀ fs, lookupFile (stageImages images fs) srcPath = lookupFile fs srcPath := by
  induction images with
  | nil => intro fs; rfl
  | cons i is ih =>
    intro fs
    show lookupFile (stageImages is (setFile fs (resourcesDir ++ "/" ++ i.1) i.2))
        srcPath = lookupFile fs srcPath
    rw [ih, lookupFile_setFile_ne]
    exact (resources_path_ne_srcPath i.1).symm

/-- C9: every successful render responds with the header
`attachment; filename=<base>.<fmt>` where base is the uploaded filename's
final component stripped of its extension and fmt the negotiated token. -/
theorem content_disposition_structure (engine : Engine) (req : RenderRequest)
    (fs : FS) (fmt : String) (resp : RenderResponse)
    (hfmt : mimetype_to_type (effectiveMimetype req.accept) = .ok fmt)
    (hok : (renderPost engine req fs).1 = .ok resp) :
    resp.contentDisposition =
      "attachment; filename=" ++
        (pyStem (pathName req.ymlFilename) ++ ("." ++ fmt)) := by
  have hname : pathName req.ymlFilename ≠ "" := by
    intro he
    simp [renderPost, hfmt, pyWithSuffixName, he] at hok
  rw [renderPost_of_ok_name engine req fs fmt hfmt hname] at hok
  cases hX : (renderBody engine req fmt fs).1 with
  | error e => simp [hX] at hok
  | ok payload =>
    simp [hX] at hok
    rw [← hok]

/-- Response produced for `reqDemo` under the benign engine. -/
def respDemo : RenderResponse :=
  { body := [60, 115, 118, 103], mimetype := "image/svg+xml",
    contentDisposition := "attachment; filename=demo01.svg" }

set_option maxRecDepth 8192 in
/-- Witness for C9 on a concrete successful render. -/
theorem content_disposition_witness :
    mimetype_to_type (effectiveMimetype reqDemo.accept) = .ok "svg" ∧
    (renderPost engineOk reqDemo []).1 = .ok respDemo ∧
    respDemo.contentDisposition =
      "attachment; filename=" ++
        (pyStem (pathName reqDemo.ymlFilename) ++ ("." ++ "svg")) :=
  ⟨rfl, rfl, content_disposition_structure engineOk reqDemo [] "svg" respDemo rfl rfl⟩

/-- A request with a well-formed uploaded filename. -/
def reqNamed : RenderRequest :=
  { accept := none, ymlFilename := "harness.yml", ymlContent := [5], images := [] }

/-- The same request with an empty uploaded filename. -/
def reqEmptyName : RenderRequest :=
  { accept := none, ymlFilename := "", ymlContent := [5], images := [] }

/-- Response produced for `reqNamed` under the benign engine. -/
def respNamed : RenderResponse :=
  { body := [60, 115, 118, 103], mimetype := "image/svg+xml",
    contentDisposition := "attachment; filename=harness.svg" }

set_option maxRecDepth 8192 in
/-- C10 counterexample: two requests identical except for the client-supplied
filename do not differ only in the Content-Disposition header: the empty
filename makes `with_suffix` raise `ValueError`, so one request fails outright
while the other succeeds. -/
theorem filename_changes_more_than_header :
    reqEmptyName = { reqNamed with ymlFilename := "" } ∧
    (renderPost engineOk reqEmptyName []).1 = .error .valueError ∧
    (renderPost engineOk reqNamed []).1 = .ok respNamed :=
  ⟨rfl, rfl, rfl⟩

/-- C10 amended: the description document is always staged at the fixed path
`tmp/input.yml` and the artifact is read from the fixed path `tmp/input.<fmt>`
regardless of the client filename; between two requests whose filenames both
have a nonempty final component, the filename influences only the
Content-Disposition header - final filesystem, error outcomes, body bytes and
MIME type all coincide - while an empty final component fails the request with
`ValueError` before staging. -/
theorem filename_only_affects_download_name (engine : Engine)
    (req : RenderRequest) (f g : String) (fs : FS)
    (hf : pathName f ≠ "") (hg : pathName g ≠ "") :
    lookupFile (stagedFS { req with ymlFilename := f } fs) srcPath =
      some req.ymlContent ∧
    (∀ fmt, outFilePath fmt = tmpDir ++ "/input." ++ fmt) ∧
    (renderPost engine { req with ymlFilename := f } fs).2 =
      (renderPost engine { req with ymlFilename := g } fs).2 ∧
    (∀ e, (renderPost engine { req with ymlFilename := f } fs).1 = .error e ↔
          (renderPost engine { req with ymlFilename := g } fs).1 = .error e) ∧
    (∀ r s, (renderPost engine { req with ymlFilename := f } fs).1 = .ok r →
            (renderPost engine { req with ymlFilename := g } fs).1 = .ok s →
      r.body = s.body ∧ r.mimetype = s.mimetype) := by
  refine ⟨?_, fun fmt => rfl, ?_⟩
  · simp only [stagedFS]
    by_cases hi : req.images = []
    · rw [if_pos hi]
      exact lookupFile_setFile_same _ _ _
    · rw [if_neg hi, lookupFile_stageImages_srcPath]
      exact lookupFile_setFile_same _ _ _
  · cases hmt : mimetype_to_type (effectiveMimetype req.accept) with
    | error e =>
      rw [renderPost_format_error engine { req with ymlFilename := f } fs e hmt,
        renderPost_format_error engine { req with ymlFilename := g } fs e hmt]
      exact ⟨rfl, fun e => Iff.rfl, fun r s hr hs => by cases hr⟩
    | ok fmt =>
      rw [renderPost_of_ok_name engine { req with ymlFilename := f } fs fmt hmt hf,
        renderPost_of_ok_name engine { req with ymlFilename := g } fs fmt hmt hg]
      have hb : renderBody engine { req with ymlFilename := f } fmt fs =
          renderBody engine { req with ymlFilename := g } fmt fs := rfl
      simp only [hb]
      cases hX : (renderBody engine { req with ymlFilename := g } fmt fs).1 with
      | error e => simp [hX]
      | ok payload => simp [hX]

set_option maxRecDepth 8192 in
/-- Witness for C10 amended at two concrete filenames. -/
theorem filename_only_affects_download_name_witness :
    pathName "demo01.yaml" ≠ "" ∧ pathName "harness.yml" ≠ "" ∧
    lookupFile (stagedFS { reqNamed with ymlFilename := "demo01.yaml" } [])
      srcPath = some reqNamed.ymlContent ∧
    (renderPost engineOk { reqNamed with ymlFilename := "demo01.yaml" } []).2 =
      (renderPost engineOk { reqNamed with ymlFilename := "harness.yml" } []).2 :=
  ⟨by decide, by decide,
    (filename_only_affects_download_name engineOk reqNamed "demo01.yaml"
      "harness.yml" [] (by decide) (by decide)).1,
    (filename_only_affects_download_name engineOk reqNamed "demo01.yaml"
      "harness.yml" [] (by decide) (by decide)).2.2.1⟩

/-- The alternate base64-like alphabet of the PlantUML text encoding, in
index order: digits, uppercase, lowercase, minus, underscore. -/
def plantumlAlphabet : List Char :=
  "0123456789ABCDEFGHIJKLMNOPQRSTUVWXYZabcdefghijklmnopqrstuvwxyz-_".data

/-- Position of a character in the alternate alphabet, if it belongs to it. -/
def alphaIndex (c : Char) : Option Nat :=
  plantumlAlphabet.indexOf? c

/-- Map every character to its alphabet index; any character outside the
alphabet makes the whole translation fail. -/
def mapAlpha : List Char → Option (List Nat)
  | [] => some []
  | c :: cs =>
    match alphaIndex c, mapAlpha cs with
    | some i, some is => some (i :: is)
    | _, _ => none

/-- Regroup 6-bit values into bytes: each 4-character group yields 3 bytes,
a leftover group of 2 or 3 characters yields 1 or 2 bytes, and a leftover
single character is malformed. -/
def groupsToBytes : List Nat → Option (List Byte)
  | [] => some []
  | [_] => none
  | [a, b] => some [(a * 4 + b / 16) % 256]
  | [a, b, c] => some [(a * 4 + b / 16) % 256, (b % 16 * 16 + c / 4) % 256]
  | a :: b :: c :: d :: rest =>
    match groupsToBytes rest with
    | none => none
    | some tail =>
      some ((a * 4 + b / 16) % 256 :: (b % 16 * 16 + c / 4) % 256 ::
        (c % 4 * 64 + d) % 256 :: tail)

/-- First layer of the decoder: alternate-alphabet base64-like decoding of a
string to bytes. -/
def decode6bit (s : String) : Option (List Byte) :=
  match mapAlpha s.data with
  | none => none
  | some idxs => groupsToBytes idxs

/-- Modelled from the spec: `wireviz_web.core.decode_plantuml` is imported by
`server.py` but its source is not included under `src/`.  Per spec section 4.2
it re-alphabetizes the base64-like text with the alternate alphabet and then
inflates the resulting bytes as a raw deflate stream; the inflation step is an
external primitive and is abstracted here as the `inflate` parameter, which
returns `none` on a corrupt stream.  Any failure of either layer surfaces as
`DecodeError`. -/
def decode_plantuml (inflate : List Byte → Option String)
    (encoded : String) : Except WebError String :=
  match decode6bit encoded with
  | none => .error .decodeError
  | some bytes =>
    match inflate bytes with
    | none => .error .decodeError
    | some text => .ok text

/-- A translation fails whenever some character is outside the alphabet. -/
theorem mapAlpha_eq_none (l : List Char) (c : Char) (hc : c ∈ l)
    (h : alphaIndex c = none) : mapAlpha l = none := by
  induction l with
  | nil => cases hc
  | cons a as ih =>
    rcases List.mem_cons.mp hc with hca | hca
    · subst hca
      simp only [mapAlpha, h]
    · simp only [mapAlpha, ih hca]
      cases alphaIndex a <;> rfl

/-- C5: for every inflation primitive, the decoder fails with `DecodeError`
whenever the input contains a character outside the alternate alphabet or the
inflation step rejects the decoded bytes, and it never truncates: an `ok`
result always comes from a full alphabet decode followed by a full inflation
of exactly those bytes. -/
theorem decode_rejects_malformed (inflate : List Byte → Option String)
    (s : String) :
    ((∃ c ∈ s.data, alphaIndex c = none) →
      decode_plantuml inflate s = .error .decodeError) ∧
    (∀ b, decode6bit s = some b → inflate b = none →
      decode_plantuml inflate s = .error .decodeError) ∧
    (∀ t, decode_plantuml inflate s = .ok t →
      ∃ b, decode6bit s = some b ∧ inflate b = some t) := by
  refine ⟨?_, ?_, ?_⟩
  · rintro ⟨c, hc, hnone⟩
    have h6 : decode6bit s = none := by
      simp only [decode6bit, mapAlpha_eq_none s.data c hc hnone]
    simp only [decode_plantuml, h6]
  · intro b hb hinf
    simp only [decode_plantuml, hb, hinf]
  · intro t ht
    cases h6 : decode6bit s with
    | none => simp [decode_plantuml, h6] at ht
    | some b =>
      cases hinf : inflate b with
      | none => simp [decode_plantuml, h6, hinf] at ht
      | some u =>
        refine ⟨b, rfl, ?_⟩
        simp only [decode_plantuml, h6, hinf, Except.ok.injEq] at ht
        rw [hinf, ht]

/-- An inflation stub accepting every byte sequence, for the witness. -/
def inflateAny : List Byte → Option String := fun _ => some "yaml"

/-- Witness for C5: a tilde is outside the alphabet, so decoding fails even
under an inflation that accepts everything. -/
theorem decode_rejects_malformed_witness :
    (∃ c ∈ ("no~pe").data, alphaIndex c = none) ∧
    decode_plantuml inflateAny "no~pe" = .error .decodeError :=
  ⟨by decide, (decode_rejects_malformed inflateAny "no~pe").1 (by decide)⟩

end WirevizWeb
